import Mathlib

/-!
Verification development for a client-side menu / order-taking application
(single-page POS: menu catalog, in-memory basket, order list with status
tracking, IndexedDB-backed storage, daily rollover, import/export).

The JavaScript source is shallowly embedded below.  JavaScript numbers are
modelled as exact rationals, with an explicit marker for `NaN` and the two
infinities where the code can produce or test them (`JNum`).  Dynamically
typed record fields that the validation predicates inspect are modelled by
the primitive-value type `JPrim`.  Identifiers that the application itself
creates are either integers (the bundled initial menu) or generated strings
(`item-…`, `ord-…`); they are modelled by `JsId`, on which JavaScript's
strict equality `===` coincides with structural equality.  `localStorage`
scalars are modelled in parsed form (`Option Nat` for the order-number
counter, `Option String` for date/time markers); the program only ever
writes decimal strings / `YYYY-MM-DD` strings to them.  DOM rendering,
toasts and dialogs are out of scope; where a handler's only effect is to
show a message or invoke a storage callback, the handler is embedded as a
pure function returning which of those actions it takes.
-/

namespace MenuApp

/-- JavaScript number: an exact rational, `NaN`, or an infinity. -/
inductive JNum where
  | fin (q : ℚ)
  | nan
  | inf
  | ninf
deriving DecidableEq, Repr

/-- JavaScript primitive value (record fields of dynamically typed data). -/
inductive JPrim where
  | jUndef
  | jNull
  | jBool (b : Bool)
  | jNum (n : JNum)
  | jStr (s : String)
deriving DecidableEq, Repr

/-- JavaScript truthiness of a primitive value: `undefined`, `null`,
`false`, `0`, `NaN` and `""` are falsy, everything else is truthy. -/
def truthy : JPrim → Bool
  | .jUndef => false
  | .jNull => false
  | .jBool b => b
  | .jNum (.fin q) => q ≠ 0
  | .jNum .nan => false
  | .jNum .inf => true
  | .jNum .ninf => true
  | .jStr s => s ≠ ""

/-- JavaScript `a || b` on primitives: `a` when truthy, else `b`. -/
def jsOr (a b : JPrim) : JPrim := if truthy a then a else b

/-- Decimal digits of a natural number's fractional expansion `rem / den`,
`fuel` digits long (used by `ratToJsString`). -/
def fracDigits : Nat → Nat → Nat → List Char
  | 0, _, _ => []
  | fuel + 1, rem, den =>
    if rem = 0 then []
    else
      let rem10 := rem * 10
      (Char.ofNat (rem10 / den + 48)) :: fracDigits fuel (rem10 % den) den

/-- Rendering of a finite JavaScript number as a string (`String(x)`).
Integers print exactly as in JavaScript; for non-integers we print up to 20
decimal digits of the expansion, an adequate model of JavaScript's
shortest-round-trip formatting for the values this program handles. -/
def ratToJsString (q : ℚ) : String :=
  if q.den = 1 then toString q.num
  else
    let sign := if q < 0 then "-" else ""
    let n := q.num.natAbs
    let d := q.den
    let ip := n / d
    let frac := fracDigits 20 (n % d) d
    sign ++ toString ip ++ "." ++ String.mk frac

/-- JavaScript `String(v)` for a primitive value. -/
def jsToString : JPrim → String
  | .jUndef => "undefined"
  | .jNull => "null"
  | .jBool true => "true"
  | .jBool false => "false"
  | .jNum (.fin q) => ratToJsString q
  | .jNum .nan => "NaN"
  | .jNum .inf => "Infinity"
  | .jNum .ninf => "-Infinity"
  | .jStr s => s

/-- An application identifier: the program's ids are integers (the bundled
initial menu) or generated strings; `===` on them is structural equality. -/
inductive JsId where
  | num (n : ℤ)
  | str (s : String)
deriving DecidableEq, Repr

/-- String form of an id, as produced by a JavaScript template literal. -/
def jsIdToString : JsId → String
  | .num n => toString n
  | .str s => s

/-- A catalog entry as the basket code consumes it (`menu.js` /
`sanitizeMenuItem` output shape). -/
structure MenuItem where
  id : JsId
  name : String
  price : ℚ
  category : String
  favorite : Bool
  hidden : Bool
deriving DecidableEq, Repr

/-- A basket line: `addToBasket` pushes `{...item, quantity: 1, note: ''}`,
so a line is a menu-item snapshot plus a quantity and a note. -/
structure BasketLine where
  item : MenuItem
  quantity : Nat
  note : String
deriving DecidableEq, Repr

/-- JavaScript `x || 1` for the quantity field. -/
def q1 (n : Nat) : Nat := if n = 0 then 1 else n

/-- `addToBasket(item)`: `basket.find(b => b.id === item.id)` finds the
first line with the item's id and bumps its quantity by
`(existing.quantity || 1) + 1`; otherwise the new line
`{...item, quantity: 1, note: ''}` is pushed at the end. -/
def addToBasket : List BasketLine → MenuItem → List BasketLine
  | [], item => [⟨item, 1, ""⟩]
  | b :: rest, item =>
    if b.item.id = item.id then
      { b with quantity := q1 b.quantity + 1 } :: rest
    else
      b :: addToBasket rest item

/-- `removeBasketItem(itemId)`: `basket = basket.filter(b => b.id !== itemId)`. -/
def removeBasketItem (basket : List BasketLine) (itemId : JsId) : List BasketLine :=
  basket.filter fun b => b.item.id ≠ itemId

/-- Set the quantity of the first line with the given id (the line that
`basket.find` returns and the handler mutates). -/
def setQtyFirst : List BasketLine → JsId → Nat → List BasketLine
  | [], _, _ => []
  | b :: rest, itemId, qty =>
    if b.item.id = itemId then { b with quantity := qty } :: rest
    else b :: setQtyFirst rest itemId qty

/-- `updateBasketItemQuantity(itemId, quantity)`: only acts when
`basket.find` locates a line; a quantity `≤ 0` removes the line(s) with
that id, otherwise the found line's quantity is set. -/
def updateBasketItemQuantity (basket : List BasketLine) (itemId : JsId) (quantity : ℤ) :
    List BasketLine :=
  if basket.any (fun b => b.item.id = itemId) then
    if quantity ≤ 0 then removeBasketItem basket itemId
    else setQtyFirst basket itemId quantity.toNat
  else basket

/-- Set the note of the first line with the given id. -/
def setNoteFirst : List BasketLine → JsId → String → List BasketLine
  | [], _, _ => []
  | b :: rest, itemId, note =>
    if b.item.id = itemId then { b with note := note } :: rest
    else b :: setNoteFirst rest itemId note

/-- `updateBasketItemNote(itemId, note)`: only acts when `basket.find`
locates a line; sets `item.note = note || ''`. -/
def updateBasketItemNote (basket : List BasketLine) (itemId : JsId) (note : String) :
    List BasketLine :=
  if basket.any (fun b => b.item.id = itemId) then
    setNoteFirst basket itemId (if note = "" then "" else note)
  else basket

/-- `calculateBasketTotal()`: `basket.reduce((sum, item) =>
sum + item.price * (item.quantity || 1), 0)`. -/
def calculateBasketTotal (basket : List BasketLine) : ℚ :=
  basket.foldl (fun sum b => sum + b.item.price * (q1 b.quantity : ℚ)) 0

/-- An order item snapshot, as built inside `createOrder`'s `basket.map`. -/
structure OrderItem where
  id : JsId
  name : String
  price : ℚ
  quantity : Nat
  note : String
deriving DecidableEq, Repr

/-- A persisted order record (typed view: the shape `createOrder` writes). -/
structure Order where
  id : String
  timestamp : String
  items : List OrderItem
  total : ℚ
  status : String
  orderNumber : Nat
deriving DecidableEq, Repr

/-- The snapshot `createOrder` takes of one basket line:
`{id, name, price, quantity: item.quantity || 1, note: item.note || ''}`. -/
def lineSnapshot (b : BasketLine) : OrderItem :=
  { id := b.item.id
    name := b.item.name
    price := b.item.price
    quantity := q1 b.quantity
    note := if b.note = "" then "" else b.note }

/-- The `localStorage` key `item_usage_${itemId}` of the per-item usage
counter. -/
def usageKey (itemId : JsId) : String := "item_usage_" ++ jsIdToString itemId

/-- `incrementItemUsage(itemId)`: bump the counter under `usageKey`. -/
def incrementItemUsage (u : String → Nat) (itemId : JsId) : String → Nat :=
  fun k => if k = usageKey itemId then u (usageKey itemId) + 1 else u k

/-- Iterate `incrementItemUsage` `n` times (the `for` loop in `createOrder`
runs once per unit of `item.quantity || 1`). -/
def bumpUsage (u : String → Nat) (itemId : JsId) : Nat → String → Nat
  | 0 => u
  | n + 1 => incrementItemUsage (bumpUsage u itemId n) itemId

/-- Application state touched by order creation: the in-memory basket, the
`orders` object store, the persisted order-number counter
(`localStorage.nextOrderNumber`, parsed form) and the usage counters. -/
structure OrderAppState where
  basket : List BasketLine
  orders : List Order
  nextOrderNumber : Option Nat
  usage : String → Nat

/-- Errors `createOrder` can surface: the empty-basket early return
(`alert('Basket is empty')`), or a rejected `saveOrder` (IndexedDB `add`
fails when the key already exists), caught by the `catch` block. -/
inductive CreateOrderErr where
  | emptyBasket
  | saveFailed
deriving DecidableEq, Repr

/-- `createOrder()`: empty basket → report and return unchanged; otherwise
build the order from the parsed counter (`parseInt(localStorage
.nextOrderNumber || '1', 10)`), the basket snapshot and
`calculateBasketTotal()`, `saveOrder` it (an `add`, which fails when an
order with `newId` already exists — then the `catch` leaves all state
untouched), persist the counter incremented by one, run the usage-counter
loop over the basket, and clear the basket.  The generated id and the ISO
timestamp are parameters.  The trailing UI refreshes are out of scope. -/
def createOrder (s : OrderAppState) (newId : String) (ts : String) :
    Except CreateOrderErr Order × OrderAppState :=
  if s.basket = [] then (.error .emptyBasket, s)
  else
    let nextOrderNumber := s.nextOrderNumber.getD 1
    let order : Order :=
      { id := newId
        timestamp := ts
        items := s.basket.map lineSnapshot
        total := calculateBasketTotal s.basket
        status := "Yet to prepare"
        orderNumber := nextOrderNumber }
    if s.orders.any (fun o => o.id = newId) then (.error .saveFailed, s)
    else
      (.ok order,
        { basket := []
          orders := s.orders ++ [order]
          nextOrderNumber := some (nextOrderNumber + 1)
          usage := s.basket.foldl (fun u b => bumpUsage u b.item.id (q1 b.quantity)) s.usage })

/-- The canonical status flow, as in `renderOrderCard`:
`['Yet to prepare','Preparing','Prepared','Satisfied']`. -/
def flow : List String := ["Yet to prepare", "Preparing", "Prepared", "Satisfied"]

/-- JavaScript `Array.prototype.indexOf`: first index, `-1` when absent. -/
def jsIndexOf (l : List String) (x : String) : ℤ :=
  go 0 l
where
  go (i : ℤ) : List String → ℤ
    | [] => -1
    | a :: rest => if a = x then i else go (i + 1) rest

/-- `canMoveForward(curr, next)`: `flow.indexOf(next) === flow.indexOf(curr) + 1`. -/
def canMoveForward (curr next : String) : Bool :=
  jsIndexOf flow next = jsIndexOf flow curr + 1

/-- `canMoveBackward(curr, next)`: `flow.indexOf(next) === flow.indexOf(curr) - 1`. -/
def canMoveBackward (curr next : String) : Bool :=
  jsIndexOf flow next = jsIndexOf flow curr - 1

/-- What a status-segment gesture handler in `renderOrderCard` does:
invoke `onStatusChange(order.id, newStatus)` (the storage update), show
the `'Invalid status transition'` toast, or do nothing at all. -/
inductive GestureOutcome where
  | invoke (newStatus : String)
  | toastInvalid
  | silent
deriving DecidableEq, Repr

/-- The tap (click) handler of a status segment: a tap on the current
status returns silently; a tap on the immediate next status invokes the
storage update; any other tap shows the invalid-transition toast. -/
def statusTapOutcome (curr next : String) : GestureOutcome :=
  if next = curr then .silent
  else if canMoveForward curr next then .invoke next
  else .toastInvalid

/-- The long-press handler of a status segment: on the immediate previous
status it opens the `'Move backward?'` confirmation and invokes the
storage update only when the user confirms (cancel closes the dialog and
does nothing); any other long-press shows the invalid-transition toast. -/
def statusLongPressOutcome (curr next : String) (confirmed : Bool) : GestureOutcome :=
  if next ≠ curr ∧ canMoveBackward curr next then
    if confirmed then .invoke next else .silent
  else .toastInvalid

/-- Replace the status of the first order with the given id (the record
`store.get(id)` returns from the id-keyed store, written back by
`store.put`). -/
def setStatusFirst : List Order → String → String → List Order
  | [], _, _ => []
  | o :: rest, orderId, status =>
    if o.id = orderId then { o with status := status } :: rest
    else o :: setStatusFirst rest orderId status

/-- `updateOrderStatus(id, status)`: get the order by key — reject with
`'Order not found'` when absent — set `order.status = status` (no check of
the value) and `put` it back. -/
inductive UpdateStatusErr where
  | notFound
deriving DecidableEq, Repr

/-- The storage-layer status update (see `UpdateStatusErr`). -/
def updateOrderStatus (orders : List Order) (orderId status : String) :
    Except UpdateStatusErr (List Order) :=
  if orders.any (fun o => o.id = orderId) then
    .ok (setStatusFirst orders orderId status)
  else
    .error .notFound

/-- JavaScript `parseInt(s, 10)`: skip leading whitespace, optional sign,
then the longest run of decimal digits; `NaN` (here `none`) when no digit
follows. Trailing garbage is ignored. -/
def jsParseInt (s : String) : Option ℤ :=
  let chars := s.data.dropWhile fun c => c = ' ' ∨ c = '\t' ∨ c = '\n' ∨ c = '\r'
  match chars with
  | '-' :: rest => (digitsVal rest 0 false).map Int.neg
  | '+' :: rest => digitsVal rest 0 false
  | rest => digitsVal rest 0 false
where
  digitsVal : List Char → ℤ → Bool → Option ℤ
    | [], acc, seen => if seen then some acc else none
    | c :: rest, acc, seen =>
      if c.isDigit then digitsVal rest (acc * 10 + (c.toNat - 48 : ℤ)) true
      else if seen then some acc else none

/-- State touched by the rollover engine: the `orders` and `archive`
object stores and the `localStorage` scalars `lastResetDate` and
`closingTime`. -/
structure RolloverState where
  orders : List Order
  archive : List Order
  lastResetDate : Option String
  closingTime : Option String
deriving Repr

/-- One `store.put(order)` into the id-keyed archive store: replace the
record with the same key, else append. -/
def archivePut (archive : List Order) (o : Order) : List Order :=
  if archive.any (fun a => a.id = o.id) then
    archive.map fun a => if a.id = o.id then o else a
  else archive ++ [o]

/-- `saveArchive(ordersArray)`: `put` each order in turn. -/
def saveArchive (archive : List Order) (ordersArray : List Order) : List Order :=
  ordersArray.foldl archivePut archive

/-- `closeShopNow()`: archive every current active order (the
`saveArchive` call is skipped when there are none), replace the active
collection with `[]` (`saveOrders([])`), and record `today` —
`new Date().toISOString().slice(0,10)`, a parameter here — as
`localStorage.lastResetDate`. -/
def closeShopNow (s : RolloverState) (today : String) : RolloverState :=
  { orders := []
    archive := if s.orders ≠ [] then saveArchive s.archive s.orders else s.archive
    lastResetDate := some today
    closingTime := s.closingTime }

/-- `>` against a possibly-NaN parsed bound: any comparison with `NaN` is
false. -/
def jsGtOpt (a : ℕ) (b : Option ℤ) : Bool :=
  match b with
  | some b => (a : ℤ) > b
  | none => false

/-- `===` against a possibly-NaN parsed bound. -/
def jsEqOpt (a : ℕ) (b : Option ℤ) : Bool :=
  match b with
  | some b => (a : ℤ) = b
  | none => false

/-- `>=` against a possibly-NaN parsed bound. -/
def jsGeOpt (a : ℕ) (b : Option ℤ) : Bool :=
  match b with
  | some b => (a : ℤ) ≥ b
  | none => false

/-- JavaScript `s.split(sep)` on the character list of `s`. -/
def splitOnChar (sep : Char) : List Char → List (List Char)
  | [] => [[]]
  | c :: cs =>
    let r := splitOnChar sep cs
    if c = sep then [] :: r
    else
      match r with
      | p :: ps => (c :: p) :: ps
      | [] => [[c]]

/-- The `afterClosing` test of `maybeDailyReset`: parse
`localStorage.closingTime || '23:00'` as `HH:MM` (`parseInt(parts[0] ||
'23')`, `parseInt(parts[1] || '0')`) and check `now.getHours() > ch ||
(now.getHours() === ch && now.getMinutes() >= cm)`. -/
def afterClosing (closingTime : Option String) (nowH nowM : ℕ) : Bool :=
  let closing := match closingTime with
    | some c => if c = "" then "23:00" else c
    | none => "23:00"
  let parts := (splitOnChar ':' closing.data).map String.mk
  let p0 := parts.getD 0 ""
  let p1 := parts.getD 1 ""
  let ch := jsParseInt (if p0 = "" then "23" else p0)
  let cm := jsParseInt (if p1 = "" then "0" else p1)
  jsGtOpt nowH ch ∨ (jsEqOpt nowH ch ∧ jsGeOpt nowM cm)

/-- `maybeDailyReset()`: run `closeShopNow()` when
`localStorage.lastResetDate || ''` differs from today's date, or else when
the current wall-clock time is at or past the configured closing time.
Returns the new state and whether `closeShopNow` ran. -/
def maybeDailyReset (s : RolloverState) (today : String) (nowH nowM : ℕ) :
    RolloverState × Bool :=
  let last := s.lastResetDate.getD ""
  if last ≠ today then (closeShopNow s today, true)
  else if afterClosing s.closingTime nowH nowM then (closeShopNow s today, true)
  else (s, false)

/-- Does `pat` occur at the head of `s`? (helper for `String.includes`). -/
def charsLeadWith : List Char → List Char → Bool
  | [], _ => true
  | _ :: _, [] => false
  | p :: ps, c :: cs => p = c && charsLeadWith ps cs

/-- Does `pat` occur anywhere in `s`? -/
def charsContain (pat : List Char) : List Char → Bool
  | [] => charsLeadWith pat []
  | c :: cs => charsLeadWith pat (c :: cs) || charsContain pat cs

/-- JavaScript `s.includes(pat)`. -/
def jsIncludes (s pat : String) : Bool := charsContain pat.data s.data

/-- JavaScript `s.toLowerCase()` (ASCII case mapping suffices here). -/
def jsToLower (s : String) : String := String.mk (s.data.map Char.toLower)

/-- A whitespace character as JavaScript's `trim` treats it (the
characters this program can actually encounter). -/
def isWsChar (c : Char) : Bool := c = ' ' ∨ c = '\t' ∨ c = '\n' ∨ c = '\r'

/-- JavaScript `s.trim()`: strip whitespace from both ends. -/
def jsTrim (s : String) : String :=
  String.mk (((s.data.dropWhile isWsChar).reverse.dropWhile isWsChar).reverse)

/-- `String(n).padStart(4, '0')` for a natural number. -/
def padStart4 (n : ℕ) : String :=
  let s := toString n
  if s.length < 4 then String.mk (List.replicate (4 - s.length) '0') ++ s else s

/-- `filterOrders(orders, query)`: empty or whitespace-only query returns
the list unfiltered; otherwise keep an order when the lowercased trimmed
query occurs in the lowercased order id, or — only when `order.orderNumber`
is truthy (present and non-zero) — in the orderNumber zero-padded to 4
digits, or in some item's lowercased name.  An absent `orderNumber` is
modelled as `0`: both are falsy, and the padded check is guarded by
`if (order.orderNumber)`. -/
def filterOrders (orders : List Order) (query : String) : List Order :=
  if query = "" ∨ jsTrim query = "" then orders
  else
    let lowerQuery := jsTrim (jsToLower query)
    orders.filter fun o =>
      if jsIncludes (jsToLower o.id) lowerQuery then true
      else if o.orderNumber ≠ 0 ∧ jsIncludes (jsToLower (padStart4 o.orderNumber)) lowerQuery then
        true
      else o.items.any fun it => jsIncludes (jsToLower it.name) lowerQuery

/-- The search criterion of the specification, with the padded-orderNumber
clause applying only to a truthy (non-zero) `orderNumber`: the lowercased
query occurs in the id (case-insensitively), in the zero-padded order
number, or in some item's name (case-insensitively). -/
def specOrderMatches (query : String) (o : Order) : Bool :=
  let lq := jsTrim (jsToLower query)
  jsIncludes (jsToLower o.id) lq ||
    (o.orderNumber ≠ 0 && jsIncludes (jsToLower (padStart4 o.orderNumber)) lq) ||
    o.items.any fun it => jsIncludes (jsToLower it.name) lq

/-- A raw (unvalidated) menu record: the dynamically typed fields that
`isValidMenuItem` and `sanitizeMenuItem` inspect.  A missing field is
`jUndef`. -/
structure RawMenuItem where
  id : JPrim
  name : JPrim
  price : JPrim
  category : JPrim
  favorite : JPrim
  hidden : JPrim
deriving DecidableEq, Repr

/-- A raw order-item record (contents are never inspected by the
structural order predicate; carried through verbatim). -/
structure RawOrderItem where
  id : JPrim
  name : JPrim
  price : JPrim
  quantity : JPrim
  note : JPrim
deriving DecidableEq, Repr

/-- A raw (unvalidated) order record.  `items` is `some l` exactly when
the field holds an array (the predicate tests `typeof === 'object' &&
Array.isArray`); any non-array value is `none`. -/
structure RawOrder where
  id : JPrim
  timestamp : JPrim
  items : Option (List RawOrderItem)
  total : JPrim
  status : JPrim
  orderNumber : JPrim
deriving DecidableEq, Repr

/-- `typeof v === 'string'`. -/
def isStrPrim : JPrim → Bool
  | .jStr _ => true
  | _ => false

/-- `typeof v === 'number'` (includes `NaN` and the infinities). -/
def isNumPrim : JPrim → Bool
  | .jNum _ => true
  | _ => false

/-- `typeof v === 'number' && !isNaN(v) && isFinite(v)`. -/
def isFiniteNum : JPrim → Bool
  | .jNum (.fin _) => true
  | _ => false

/-- `isValidMenuItem(item)` on an object: truthy `id` of string or number
type, truthy string `name`, and a finite non-NaN numeric `price`. -/
def isValidMenuItemB (m : RawMenuItem) : Bool :=
  truthy m.id && (isStrPrim m.id || isNumPrim m.id) &&
    truthy m.name && isStrPrim m.name &&
    isFiniteNum m.price

/-- `isValidOrder(order)` on an object: truthy string `id`, truthy
`timestamp`, an array `items`, and a finite non-NaN numeric `total`. -/
def isValidOrderB (o : RawOrder) : Bool :=
  truthy o.id && isStrPrim o.id &&
    truthy o.timestamp &&
    o.items.isSome &&
    isFiniteNum o.total

/-- Decimal value of a digit run. -/
def digitsToNat (ds : List Char) : ℕ :=
  ds.foldl (fun a c => a * 10 + (c.toNat - 48)) 0

/-- Core of `parseFloat` after sign handling: `"Infinity"`, or decimal
digits with an optional single fraction point; `NaN` when no digit is
found.  (JavaScript additionally accepts exponent notation, which this
program never feeds in; the model omits it.) -/
def parseFloatCore (cs : List Char) : JNum :=
  if charsLeadWith "Infinity".data cs then .inf
  else
    let ip := cs.takeWhile (·.isDigit)
    let rest := cs.dropWhile (·.isDigit)
    match rest with
    | '.' :: rest2 =>
      let fp := rest2.takeWhile (·.isDigit)
      if ip.isEmpty ∧ fp.isEmpty then .nan
      else .fin ((digitsToNat ip : ℚ) + (digitsToNat fp : ℚ) / ((10 : ℚ) ^ fp.length))
    | _ => if ip.isEmpty then .nan else .fin (digitsToNat ip)

/-- JavaScript `parseFloat` on a string: skip leading whitespace, optional
sign, longest numeric token; `NaN` when none. -/
def parseFloatStr (s : String) : JNum :=
  let cs := s.data.dropWhile fun c => c = ' ' ∨ c = '\t' ∨ c = '\n' ∨ c = '\r'
  match cs with
  | '-' :: rest =>
    (match parseFloatCore rest with
     | .fin q => .fin (-q)
     | .inf => .ninf
     | x => x)
  | '+' :: rest => parseFloatCore rest
  | rest => parseFloatCore rest

/-- `parseFloat(v)` on a primitive value: a number parses back to itself
(JavaScript number formatting round-trips); any other value is converted
with `String(...)` first. -/
def parseFloatJ : JPrim → JNum
  | .jNum n => n
  | v => parseFloatStr (jsToString v)

/-- `Math.round`: nearest integer, halves toward `+∞`; `NaN` and the
infinities pass through. -/
def jsRound : JNum → JNum
  | .fin q => .fin ((⌊q + 1 / 2⌋ : ℤ) : ℚ)
  | x => x

/-- Multiplication by 100 on a JavaScript number (`NaN` propagates). -/
def jnMul100 : JNum → JNum
  | .fin q => .fin (q * 100)
  | x => x

/-- Division by 100 on a JavaScript number (`NaN` propagates). -/
def jnDiv100 : JNum → JNum
  | .fin q => .fin (q / 100)
  | x => x

/-- `Math.round(x * 100) / 100` — round to 2 decimal places. -/
def round2 (n : JNum) : JNum := jnDiv100 (jsRound (jnMul100 n))

/-- The rounded value on rationals: `round2` restricted to finite input. -/
def round2Rat (q : ℚ) : ℚ := ((⌊q * 100 + 1 / 2⌋ : ℤ) : ℚ) / 100

/-- The sanitized record `sanitizeMenuItem` returns: strings, a number
(possibly `NaN`), and booleans. -/
structure SanitizedMenuItem where
  id : String
  name : String
  price : JNum
  category : String
  favorite : Bool
  hidden : Bool
deriving DecidableEq, Repr

/-- `sanitizeMenuItem(item)`:
`id: item.id ? String(item.id).trim() : ''`,
`name: String(item.name || '').trim()`,
`price: Math.round(parseFloat(item.price || 0) * 100) / 100`,
`category: String(item.category || 'Uncategorized').trim() || 'Uncategorized'`,
`favorite: Boolean(item.favorite)`, `hidden: Boolean(item.hidden)`. -/
def sanitizeMenuItem (item : RawMenuItem) : SanitizedMenuItem :=
  { id := if truthy item.id then jsTrim (jsToString item.id) else ""
    name := jsTrim (jsToString (jsOr item.name (.jStr "")))
    price := round2 (parseFloatJ (jsOr item.price (.jNum (.fin 0))))
    category :=
      let c := jsTrim (jsToString (jsOr item.category (.jStr "Uncategorized")))
      if c = "" then "Uncategorized" else c
    favorite := truthy item.favorite
    hidden := truthy item.hidden }

/-- An element of a JSON array in a backup file: a primitive (dropped by
the object check of the structural predicates) or an object record. -/
inductive RawMenuEntry where
  | prim (v : JPrim)
  | obj (m : RawMenuItem)
deriving DecidableEq, Repr

/-- An element of the `orders` array of a backup file. -/
inductive RawOrderEntry where
  | prim (v : JPrim)
  | obj (o : RawOrder)
deriving DecidableEq, Repr

/-- `isValidMenuItem` on an array element: non-objects fail the
`item && typeof item === 'object'` test. -/
def menuEntryValid? : RawMenuEntry → Option RawMenuItem
  | .prim _ => none
  | .obj m => if isValidMenuItemB m then some m else none

/-- `isValidOrder` on an array element. -/
def orderEntryValid? : RawOrderEntry → Option RawOrder
  | .prim _ => none
  | .obj o => if isValidOrderB o then some o else none

/-- Is a primitive a valid IndexedDB key (a non-NaN number or a string)? -/
def isIdbKey : JPrim → Bool
  | .jStr _ => true
  | .jNum .nan => false
  | .jNum _ => true
  | _ => false

/-- No two equal keys in the list. -/
def keysNodup : List JPrim → Bool
  | [] => true
  | k :: rest => !rest.contains k && keysNodup rest

/-- Can a `clear`-then-`add`-each sequence against an id-keyed store
succeed for records with these keys?  `add` throws on an invalid key and
rejects on a duplicate. -/
def keysOk (keys : List JPrim) : Bool := keys.all isIdbKey && keysNodup keys

/-- The IndexedDB-backed collections: the `menu`, `orders` and `archive`
object stores, all keyed by `id`. -/
structure DbState where
  menu : List RawMenuItem
  orders : List RawOrder
  archive : List RawOrder
deriving DecidableEq, Repr

/-- `getMenu()`: read all records and silently drop the ones failing
`isValidMenuItem` (the read-time firewall). -/
def getMenuDb (s : DbState) : List RawMenuItem := s.menu.filter isValidMenuItemB

/-- `getAllOrders()`: read all records and silently drop the ones failing
`isValidOrder`. -/
def getAllOrdersDb (s : DbState) : List RawOrder := s.orders.filter isValidOrderB

/-- The snapshot object `{menu, orders}` built by `exportAll()`. -/
structure ExportSnapshot where
  menu : List RawMenuItem
  orders : List RawOrder
deriving DecidableEq, Repr

/-- `exportAll()`: dump of the two active collections through the lenient
readers; the archive store is not read. -/
def exportAll (s : DbState) : ExportSnapshot :=
  { menu := getMenuDb s, orders := getAllOrdersDb s }

/-- The parsed JSON handed to `importAll`: either not an object (also
covers falsy values), or an object whose `menu` / `orders` properties each
either hold an array (`some`) or fail the
`!json.menu || !Array.isArray(json.menu)` test (`none`). -/
inductive ImportJson where
  | nonObject
  | obj (menu : Option (List RawMenuEntry)) (orders : Option (List RawOrderEntry))
deriving DecidableEq, Repr

/-- The snapshot `exportAll` produces, re-read as `importAll` input (every
exported record is an object). -/
def snapshotToJson (snap : ExportSnapshot) : ImportJson :=
  .obj (some (snap.menu.map .obj)) (some (snap.orders.map .obj))

/-- How `importAll` can fail: the validation rejections (`Invalid backup
file`), or a rejected storage write (clear/add failure, e.g. a duplicate
key among the records being added). -/
inductive ImportErr where
  | invalidBackup
  | storageError
deriving DecidableEq, Repr

/-- `importAll(json)`: reject non-objects and missing/non-array `menu` or
`orders`; filter `json.menu` through `isValidMenuItem` and reject when the
filter left nothing although the input array was non-empty; `saveMenu` the
filtered menu (clear + add each — fails on a bad or duplicate key); filter
`json.orders` through `isValidOrder`, clear the orders store and add each
filtered order.  On success both active collections hold exactly the
filtered snapshot contents; the archive store is never touched. -/
def importAll (s : DbState) (json : ImportJson) : Except ImportErr DbState :=
  match json with
  | .nonObject => .error .invalidBackup
  | .obj none _ => .error .invalidBackup
  | .obj (some _) none => .error .invalidBackup
  | .obj (some menuEntries) (some orderEntries) =>
    let validMenu := menuEntries.filterMap menuEntryValid?
    if validMenu = [] ∧ menuEntries ≠ [] then .error .invalidBackup
    else if keysOk (validMenu.map (·.id)) then
      let validOrders := orderEntries.filterMap orderEntryValid?
      if keysOk (validOrders.map (·.id)) then
        .ok { menu := validMenu, orders := validOrders, archive := s.archive }
      else .error .storageError
    else .error .storageError

/-! ### Claim statement predicates -/

/-- The property claimed for repeated `addToBasket` with one id: after `n`
calls, exactly one line carries the id, and its quantity is `n`. -/
def AddSameIdClaim (l : List BasketLine) (item : MenuItem) (n : ℕ) : Prop :=
  ((((fun bk => addToBasket bk item)^[n] l).filter fun b => b.item.id = item.id).length = 1) ∧
    ∀ b ∈ (fun bk => addToBasket bk item)^[n] l, b.item.id = item.id → b.quantity = n

/-- The property claimed for a successful `createOrder` on a non-empty
basket: the persisted order snapshots the basket lines, its total is the
sum of price × quantity, its status is `"Yet to prepare"`, its orderNumber
is the counter's current value and the counter is persisted incremented by
one; the basket is cleared and each line's usage counter grows by that
line's quantity (all other usage counters are untouched). -/
def CreateOrderClaim (s : OrderAppState) (newId ts : String) : Prop :=
  ∃ ord : Order,
    (createOrder s newId ts).1 = .ok ord ∧
    ord.items = s.basket.map lineSnapshot ∧
    ord.total = (s.basket.map fun b => b.item.price * (b.quantity : ℚ)).sum ∧
    ord.status = "Yet to prepare" ∧
    ord.orderNumber = s.nextOrderNumber.getD 1 ∧
    (createOrder s newId ts).2.orders = s.orders ++ [ord] ∧
    (createOrder s newId ts).2.nextOrderNumber = some (s.nextOrderNumber.getD 1 + 1) ∧
    (createOrder s newId ts).2.basket = [] ∧
    (∀ b ∈ s.basket,
      (createOrder s newId ts).2.usage (usageKey b.item.id) =
        s.usage (usageKey b.item.id) + b.quantity) ∧
    ∀ k : String, (∀ b ∈ s.basket, k ≠ usageKey b.item.id) →
      (createOrder s newId ts).2.usage k = s.usage k

/-- The (amended) behaviour of `maybeDailyReset`: it triggers a full
`closeShopNow` exactly when the last-reset marker differs from today's
date, or the wall clock is at or past the configured closing time — with
no further guard; when it does not trigger, the state is exactly
unchanged; and two calls within the same calendar day before closing time
trigger at most one rollover (the second call never triggers). -/
def MaybeDailyResetAmended (s : RolloverState) (today : String) (nowH nowM : ℕ) : Prop :=
  ((maybeDailyReset s today nowH nowM).2 = true ↔
    (s.lastResetDate.getD "" ≠ today ∨ afterClosing s.closingTime nowH nowM = true)) ∧
  ((maybeDailyReset s today nowH nowM).2 = true →
    (maybeDailyReset s today nowH nowM).1 = closeShopNow s today) ∧
  ((maybeDailyReset s today nowH nowM).2 = false →
    (maybeDailyReset s today nowH nowM).1 = s) ∧
  (afterClosing s.closingTime nowH nowM = false →
    (maybeDailyReset (maybeDailyReset s today nowH nowM).1 today nowH nowM).2 = false)

/-- The specification's example order for the search claim:
`{id: "ord-abc123", items: [{name: "Veg Fried Rice"}]}`. -/
def exampleOrder : Order :=
  { id := "ord-abc123"
    timestamp := "2026-01-01T00:00:00.000Z"
    items := [⟨.num 9, "Veg Fried Rice", 110, 1, ""⟩]
    total := 110
    status := "Yet to prepare"
    orderNumber := 7 }

/-- A concrete raw record exercising the sanitizer: padded strings, a
numeric price `12.345`, a blank category, a truthy numeric favorite. -/
def exampleRawItem : RawMenuItem :=
  { id := .jStr " x1 "
    name := .jStr " Tea "
    price := .jNum (.fin (12345 / 1000))
    category := .jStr "   "
    favorite := .jNum (.fin 1)
    hidden := .jUndef }

/-- A raw record whose price field is a truthy non-numeric string. -/
def badPriceRawItem : RawMenuItem :=
  { id := .jUndef
    name := .jStr "Tea"
    price := .jStr "abc"
    category := .jUndef
    favorite := .jUndef
    hidden := .jUndef }

/-- The property claimed for `importAll`: rejection of non-objects and
missing/non-array collections, predicate filtering with replace-all
semantics and an untouched archive, rejection when filtering empties a
non-empty input menu, and acceptance of a literally empty menu array. -/
def ImportAllClaim (s : DbState) : Prop :=
  (importAll s .nonObject = .error .invalidBackup) ∧
    (∀ ords, importAll s (.obj none ords) = .error .invalidBackup) ∧
    (∀ menu, importAll s (.obj (some menu) none) = .error .invalidBackup) ∧
    (∀ menu ords t, importAll s (.obj (some menu) (some ords)) = .ok t →
      t.menu = menu.filterMap menuEntryValid? ∧
        t.orders = ords.filterMap orderEntryValid? ∧
        t.archive = s.archive) ∧
    (∀ menu ords, menu.filterMap menuEntryValid? = [] → menu ≠ [] →
      importAll s (.obj (some menu) (some ords)) = .error .invalidBackup) ∧
    (∀ ords, importAll s (.obj (some []) (some ords)) ≠ .error .invalidBackup) ∧
    ∀ ords, keysOk ((ords.filterMap orderEntryValid?).map (fun o => o.id)) = true →
      importAll s (.obj (some []) (some ords)) =
        .ok { menu := [], orders := ords.filterMap orderEntryValid?, archive := s.archive }

/-- A concrete stored order record passing the structural predicate. -/
def exampleRawOrder : RawOrder :=
  { id := .jStr "ord-1"
    timestamp := .jStr "2026-01-01T00:00:00.000Z"
    items := some [⟨.jNum (.fin 1), .jStr "Steam Momos", .jNum (.fin 80), .jNum (.fin 2), .jStr ""⟩]
    total := .jNum (.fin 160)
    status := .jStr "Yet to prepare"
    orderNumber := .jNum (.fin 3) }

/-! ### Helper lemmas -/

theorem round2_fin (q : ℚ) : round2 (.fin q) = .fin (round2Rat q) := rfl

theorem filterMap_menuEntry_obj (l : List RawMenuItem)
    (h : ∀ m ∈ l, isValidMenuItemB m = true) :
    (l.map RawMenuEntry.obj).filterMap menuEntryValid? = l := by
  induction l with
  | nil => rfl
  | cons m t ih =>
    simp only [List.map_cons, List.filterMap_cons, menuEntryValid?,
      h m (List.mem_cons_self m t), if_pos]
    rw [ih fun x hx => h x (List.mem_cons_of_mem m hx)]

theorem filterMap_orderEntry_obj (l : List RawOrder)
    (h : ∀ o ∈ l, isValidOrderB o = true) :
    (l.map RawOrderEntry.obj).filterMap orderEntryValid? = l := by
  induction l with
  | nil => rfl
  | cons o t ih =>
    simp only [List.map_cons, List.filterMap_cons, orderEntryValid?,
      h o (List.mem_cons_self o t), if_pos]
    rw [ih fun x hx => h x (List.mem_cons_of_mem o hx)]

theorem isValidMenuItemB_idbKey (m : RawMenuItem) (h : isValidMenuItemB m = true) :
    isIdbKey m.id = true := by
  rcases hid : m.id with _ | _ | b | n | str <;>
    rw [isValidMenuItemB, hid] at h <;>
    simp [truthy, isStrPrim, isNumPrim] at h <;>
    try rfl
  rcases n with q | _ | _ <;> simp [isIdbKey] <;> simp [truthy] at h

theorem isValidOrderB_idbKey (o : RawOrder) (h : isValidOrderB o = true) :
    isIdbKey o.id = true := by
  rcases hid : o.id with _ | _ | b | n | str <;>
    rw [isValidOrderB, hid] at h <;>
    simp [truthy, isStrPrim] at h <;>
    rfl

theorem addToBasket_of_not_mem (l : List BasketLine) (item : MenuItem)
    (h : ∀ b ∈ l, b.item.id ≠ item.id) :
    addToBasket l item = l ++ [⟨item, 1, ""⟩] := by
  induction l with
  | nil => rfl
  | cons b t ih =>
    have hb : b.item.id ≠ item.id := h b (List.mem_cons_self b t)
    simp only [addToBasket, if_neg hb, List.cons_append, List.cons.injEq, true_and]
    exact ih fun x hx => h x (List.mem_cons_of_mem b hx)

theorem addToBasket_append_line (l : List BasketLine) (item : MenuItem) (n : ℕ) (note : String)
    (h : ∀ b ∈ l, b.item.id ≠ item.id) :
    addToBasket (l ++ [⟨item, n, note⟩]) item = l ++ [⟨item, q1 n + 1, note⟩] := by
  induction l with
  | nil => simp [addToBasket]
  | cons b t ih =>
    have hb : b.item.id ≠ item.id := h b (List.mem_cons_self b t)
    simp only [List.cons_append, addToBasket, if_neg hb, List.cons.injEq, true_and]
    exact ih fun x hx => h x (List.mem_cons_of_mem b hx)

theorem addToBasket_iterate (l : List BasketLine) (item : MenuItem) (n : ℕ)
    (h : ∀ b ∈ l, b.item.id ≠ item.id) (hn : 1 ≤ n) :
    (fun bk => addToBasket bk item)^[n] l = l ++ [⟨item, n, ""⟩] := by
  induction n with
  | zero => omega
  | succ k ih =>
    rcases Nat.eq_or_lt_of_le hn with h1 | h1
    · rw [← h1]
      simpa using addToBasket_of_not_mem l item h
    · have hk : 1 ≤ k := by omega
      rw [Function.iterate_succ_apply', ih hk, addToBasket_append_line l item k "" h]
      have hq : q1 k = k := by
        have hk0 : k ≠ 0 := by omega
        simp [q1, hk0]
      rw [hq]

theorem addToBasket_map_id (l : List BasketLine) (item : MenuItem) :
    (addToBasket l item).map (fun b => b.item.id) =
      if l.any (fun b => b.item.id = item.id) then l.map (fun b => b.item.id)
      else l.map (fun b => b.item.id) ++ [item.id] := by
  induction l with
  | nil => simp [addToBasket]
  | cons b t ih =>
    by_cases hb : b.item.id = item.id
    · simp [addToBasket, hb]
    · simp only [addToBasket, if_neg hb, List.map_cons, List.any_cons, ih]
      by_cases ht : t.any (fun b => b.item.id = item.id) <;>
        simp [ht, hb]

theorem foldl_add_map_sum (f : BasketLine → ℚ) (l : List BasketLine) (a : ℚ) :
    l.foldl (fun s b => s + f b) a = a + (l.map f).sum := by
  induction l generalizing a with
  | nil => simp
  | cons b t ih => simp [ih, add_assoc]

theorem calculateBasketTotal_eq_sum (l : List BasketLine) :
    calculateBasketTotal l = (l.map fun b => b.item.price * (q1 b.quantity : ℚ)).sum := by
  unfold calculateBasketTotal
  rw [foldl_add_map_sum]
  simp

theorem bumpUsage_same (u : String → Nat) (i : JsId) (n : ℕ) :
    bumpUsage u i n (usageKey i) = u (usageKey i) + n := by
  induction n with
  | zero => rfl
  | succ k ih =>
    have hstep : bumpUsage u i (k + 1) (usageKey i) = bumpUsage u i k (usageKey i) + 1 := by
      simp [bumpUsage, incrementItemUsage]
    rw [hstep, ih]
    omega

theorem bumpUsage_other (u : String → Nat) (i : JsId) (n : ℕ) (k : String)
    (hk : k ≠ usageKey i) :
    bumpUsage u i n k = u k := by
  induction n with
  | zero => rfl
  | succ m ih => simp only [bumpUsage, incrementItemUsage, if_neg hk, ih]

theorem foldUsage_frame (l : List BasketLine) (u : String → Nat) (k : String)
    (hk : ∀ b ∈ l, k ≠ usageKey b.item.id) :
    l.foldl (fun u b => bumpUsage u b.item.id (q1 b.quantity)) u k = u k := by
  induction l generalizing u with
  | nil => rfl
  | cons b t ih =>
    simp only [List.foldl_cons]
    rw [ih _ fun x hx => hk x (List.mem_cons_of_mem b hx)]
    exact bumpUsage_other u b.item.id (q1 b.quantity) k (hk b (List.mem_cons_self b t))

theorem foldUsage_mem : ∀ (l : List BasketLine) (u : String → Nat) (b₀ : BasketLine),
    b₀ ∈ l → (l.map fun b => usageKey b.item.id).Nodup →
    l.foldl (fun u b => bumpUsage u b.item.id (q1 b.quantity)) u (usageKey b₀.item.id) =
      u (usageKey b₀.item.id) + q1 b₀.quantity
  | [], _, _, hmem, _ => absurd hmem (List.not_mem_nil _)
  | b :: t, u, b₀, hmem, hnd => by
    simp only [List.map_cons, List.nodup_cons] at hnd
    obtain ⟨hnotin, hndt⟩ := hnd
    rcases List.mem_cons.mp hmem with hb | hb
    · subst hb
      simp only [List.foldl_cons]
      rw [foldUsage_frame t _ (usageKey b₀.item.id) ?frame]
      · exact bumpUsage_same u b₀.item.id (q1 b₀.quantity)
      case frame =>
        intro x hx hxeq
        apply hnotin
        rw [hxeq]
        exact List.mem_map_of_mem _ hx
    · simp only [List.foldl_cons]
      rw [foldUsage_mem t _ b₀ hb hndt, bumpUsage_other]
      intro hkeq
      apply hnotin
      rw [← hkeq]
      exact List.mem_map_of_mem _ hb

theorem setStatusFirst_mem : ∀ (orders : List Order) (orderId status : String),
    orders.any (fun o => o.id = orderId) = true →
    ∃ o ∈ setStatusFirst orders orderId status, o.id = orderId ∧ o.status = status
  | [], _, _, h => by simp at h
  | o :: rest, orderId, status, h => by
    by_cases ho : o.id = orderId
    · exact ⟨{ o with status := status }, by simp [setStatusFirst, ho], ho, rfl⟩
    · have hrest : rest.any (fun o => o.id = orderId) = true := by
        simpa [List.any_cons, ho] using h
      obtain ⟨o', ho', hid, hst⟩ := setStatusFirst_mem rest orderId status hrest
      exact ⟨o', by simp [setStatusFirst, ho, List.mem_cons, ho'], hid, hst⟩

/-! ### Claims about the Basket Manager -/

/-- C7: for every sequence of `n ≥ 1` `addToBasket` calls with the same
item id, starting from a basket with no line for that id, the basket ends
with exactly one line for that id whose quantity is `n`; and `addToBasket`
preserves the at-most-one-line-per-id invariant. -/
theorem addToBasket_sameId_spec (l : List BasketLine) (item : MenuItem) (n : ℕ)
    (h : ∀ b ∈ l, b.item.id ≠ item.id) (hn : 1 ≤ n) :
    AddSameIdClaim l item n ∧
      ∀ bk : List BasketLine, (bk.map fun b => b.item.id).Nodup →
        ((addToBasket bk item).map fun b => b.item.id).Nodup := by
  constructor
  · unfold AddSameIdClaim
    rw [addToBasket_iterate l item n h hn]
    constructor
    · rw [List.filter_append]
      have h1 : l.filter (fun b => b.item.id = item.id) = [] :=
        List.filter_eq_nil_iff.mpr fun b hb => by simpa using h b hb
      simp [h1]
    · intro b hb hbid
      rcases List.mem_append.mp hb with hb | hb
      · exact absurd hbid (h b hb)
      · simp only [List.mem_singleton] at hb
        subst hb
        rfl
  · intro bk hbk
    rw [addToBasket_map_id]
    by_cases hany : bk.any (fun b => b.item.id = item.id)
    · simpa [hany] using hbk
    · have hnotin : item.id ∉ bk.map fun b => b.item.id := by
        intro hmem
        rcases List.mem_map.mp hmem with ⟨b, hb, hbid⟩
        exact hany (List.any_eq_true.mpr ⟨b, hb, by simpa using hbid⟩)
      rw [if_neg hany, List.nodup_append]
      refine ⟨hbk, List.nodup_singleton _, ?_⟩
      intro a ha has
      simp only [List.mem_singleton] at has
      subst has
      exact hnotin ha

/-- Witness for C7: two adds of "Steam Momos" onto a basket holding one
other line produce a single line of quantity 2. -/
theorem addToBasket_sameId_spec_witness :
    AddSameIdClaim [⟨⟨.num 2, "Fried Momos", 90, "Momos", false, false⟩, 1, ""⟩]
        ⟨.num 1, "Steam Momos", 80, "Momos", false, false⟩ 2 ∧
      ∀ bk : List BasketLine, (bk.map fun b => b.item.id).Nodup →
        ((addToBasket bk ⟨.num 1, "Steam Momos", 80, "Momos", false, false⟩).map
          fun b => b.item.id).Nodup :=
  addToBasket_sameId_spec _ _ 2 (by decide) (by decide)

/-- C10: quantity updates, removals and note updates addressed at an id
with no basket line are silent no-ops: the basket is returned exactly
unchanged and no error is raised. -/
theorem basket_missingId_noop (basket : List BasketLine) (itemId : JsId)
    (h : ∀ b ∈ basket, b.item.id ≠ itemId) :
    (∀ q : ℤ, updateBasketItemQuantity basket itemId q = basket) ∧
      removeBasketItem basket itemId = basket ∧
      ∀ note : String, updateBasketItemNote basket itemId note = basket := by
  have hany : basket.any (fun b => b.item.id = itemId) = false := by
    rw [List.any_eq_false]
    intro b hb
    simpa using h b hb
  refine ⟨fun q => ?_, ?_, fun note => ?_⟩
  · simp [updateBasketItemQuantity, hany]
  · rw [removeBasketItem, List.filter_eq_self]
    intro b hb
    simpa using h b hb
  · simp [updateBasketItemNote, hany]

/-- Witness for C10: a basket holding item 1 is untouched by operations on
the absent item 2. -/
theorem basket_missingId_noop_witness :
    (∀ q : ℤ, updateBasketItemQuantity
        [⟨⟨.num 1, "Steam Momos", 80, "Momos", false, false⟩, 1, ""⟩] (.num 2) q =
        [⟨⟨.num 1, "Steam Momos", 80, "Momos", false, false⟩, 1, ""⟩]) ∧
      removeBasketItem [⟨⟨.num 1, "Steam Momos", 80, "Momos", false, false⟩, 1, ""⟩] (.num 2) =
        [⟨⟨.num 1, "Steam Momos", 80, "Momos", false, false⟩, 1, ""⟩] ∧
      ∀ note : String, updateBasketItemNote
        [⟨⟨.num 1, "Steam Momos", 80, "Momos", false, false⟩, 1, ""⟩] (.num 2) note =
        [⟨⟨.num 1, "Steam Momos", 80, "Momos", false, false⟩, 1, ""⟩] :=
  basket_missingId_noop _ _ (by decide)

/-- C3: `createOrder` on an empty basket fails on the empty-basket check
and leaves the whole state — persisted orders, order-number counter and
usage counters — unchanged. -/
theorem createOrder_emptyBasket (s : OrderAppState) (newId ts : String)
    (h : s.basket = []) :
    createOrder s newId ts = (.error .emptyBasket, s) := by
  simp [createOrder, h]

/-- Witness for C3: the empty basket over an arbitrary concrete state. -/
theorem createOrder_emptyBasket_witness :
    createOrder ⟨[], [], some 5, fun _ => 0⟩ "ord-z" "2026-01-01T00:00:00.000Z" =
      (.error .emptyBasket, ⟨[], [], some 5, fun _ => 0⟩) :=
  createOrder_emptyBasket _ _ _ rfl

/-- C1: a successful `createOrder` on a non-empty basket (fresh order id,
line quantities at least 1 as the Basket Manager guarantees, and basket
lines with pairwise distinct usage-counter keys) persists the snapshot
order with the claimed total, status, and order number, increments the
persisted counter by one, clears the basket, and bumps each line's usage
counter once per unit quantity. -/
theorem createOrder_spec (s : OrderAppState) (newId ts : String)
    (hne : s.basket ≠ [])
    (hq : ∀ b ∈ s.basket, 1 ≤ b.quantity)
    (hkeys : (s.basket.map fun b => usageKey b.item.id).Nodup)
    (hfresh : ∀ o ∈ s.orders, o.id ≠ newId) :
    CreateOrderClaim s newId ts := by
  have hany : s.orders.any (fun o => o.id = newId) = false := by
    rw [List.any_eq_false]
    intro o ho
    simpa using hfresh o ho
  have husage : (createOrder s newId ts).2.usage =
      s.basket.foldl (fun u b => bumpUsage u b.item.id (q1 b.quantity)) s.usage := by
    simp [createOrder, hne, hany]
  refine ⟨{ id := newId, timestamp := ts, items := s.basket.map lineSnapshot,
            total := calculateBasketTotal s.basket, status := "Yet to prepare",
            orderNumber := s.nextOrderNumber.getD 1 },
          ?_, rfl, ?_, rfl, rfl, ?_, ?_, ?_, ?_, ?_⟩
  · simp [createOrder, hne, hany]
  · show calculateBasketTotal s.basket = _
    rw [calculateBasketTotal_eq_sum]
    apply congrArg List.sum
    apply List.map_congr_left
    intro b hb
    have hb0 : b.quantity ≠ 0 := by
      have := hq b hb
      omega
    simp [q1, hb0]
  · simp [createOrder, hne, hany]
  · simp [createOrder, hne, hany]
  · simp [createOrder, hne, hany]
  · intro b hb
    rw [husage, foldUsage_mem s.basket s.usage b hb hkeys]
    have hb0 : b.quantity ≠ 0 := by
      have := hq b hb
      omega
    simp [q1, hb0]
  · intro k hk
    rw [husage, foldUsage_frame s.basket s.usage k hk]

/-- Witness for C1: the specification's own example basket
`[{price: 80, qty: 2}, {price: 120, qty: 1}]` against a concrete state. -/
theorem createOrder_spec_witness :
    CreateOrderClaim
      ⟨[⟨⟨.num 1, "Steam Momos", 80, "Momos", false, false⟩, 2, ""⟩,
        ⟨⟨.num 5, "Veg Hakka Noodles", 120, "Noodles", false, false⟩, 1, ""⟩],
       [], some 4, fun _ => 0⟩ "ord-w1" "2026-01-01T00:00:00.000Z" :=
  createOrder_spec _ "ord-w1" "2026-01-01T00:00:00.000Z"
    (by decide) (by decide) (by decide) (by decide)

/-! ### Claims about the status state machine -/

/-- C2 (amended): for statuses in the canonical flow, the order-card
handlers invoke the storage update exactly for the immediate next status
(tap) or the immediate previous status after explicit confirmation
(long-press); skip requests are rejected with a report, while a same-state
tap is silently ignored (not reported); and `updateOrderStatus` itself
writes any supplied status value unconditionally for an existing order. -/
theorem orderStatus_transition_spec :
    (∀ curr ∈ flow, ∀ next ∈ flow,
      (statusTapOutcome curr next = .invoke next ↔
        jsIndexOf flow next = jsIndexOf flow curr + 1) ∧
      (statusTapOutcome curr next = .silent ↔ next = curr) ∧
      (statusTapOutcome curr next = .toastInvalid ↔
        (next ≠ curr ∧ jsIndexOf flow next ≠ jsIndexOf flow curr + 1)) ∧
      (∀ confirmed : Bool, statusLongPressOutcome curr next confirmed = .invoke next ↔
        (jsIndexOf flow next = jsIndexOf flow curr - 1 ∧ confirmed = true))) ∧
    ∀ (orders : List Order) (orderId status : String),
      orders.any (fun o => o.id = orderId) = true →
      ∃ os', updateOrderStatus orders orderId status = .ok os' ∧
        ∃ o ∈ os', o.id = orderId ∧ o.status = status := by
  constructor
  · intro curr hc next hn
    fin_cases hc <;> fin_cases hn <;> decide
  · intro orders orderId status h
    refine ⟨setStatusFirst orders orderId status, ?_, setStatusFirst_mem orders orderId status h⟩
    simp [updateOrderStatus, h]

/-- Witness for C2: from `"Preparing"`, a tap to `"Prepared"` is the
immediate forward step; the storage layer accepts writing `"Satisfied"`
onto a `"Preparing"` order (a skip) without restriction. -/
theorem orderStatus_transition_spec_witness :
    (statusTapOutcome "Preparing" "Prepared" = .invoke "Prepared" ↔
        jsIndexOf flow "Prepared" = jsIndexOf flow "Preparing" + 1) ∧
      ∃ os', updateOrderStatus [⟨"o1", "t", [], 0, "Preparing", 1⟩] "o1" "Satisfied" = .ok os' ∧
        ∃ o ∈ os', o.id = "o1" ∧ o.status = "Satisfied" :=
  ⟨(orderStatus_transition_spec.1 "Preparing" (by decide) "Prepared" (by decide)).1,
   orderStatus_transition_spec.2 [⟨"o1", "t", [], 0, "Preparing", 1⟩] "o1" "Satisfied" (by decide)⟩

/-- C2 counterexample: a tap on the currently active status segment (a
same-state request, here `"Preparing"` → `"Preparing"`) makes the click
handler return silently: it is rejected but never reported, contradicting
the claim that any same-state request is "rejected and reported". -/
theorem statusTap_sameState_silent :
    statusTapOutcome "Preparing" "Preparing" = .silent ∧
      statusTapOutcome "Preparing" "Preparing" ≠ .toastInvalid := by
  decide

/-! ### Claims about the rollover engine -/

/-- C4 (amended): `maybeDailyReset` triggers exactly when the marker
differs from today or the clock is at or past closing time (there is no
reset-already-happened-today guard); before closing time, two same-day
calls still trigger at most one rollover. -/
theorem maybeDailyReset_spec (s : RolloverState) (today : String) (nowH nowM : ℕ) :
    MaybeDailyResetAmended s today nowH nowM := by
  unfold MaybeDailyResetAmended
  by_cases hlast : s.lastResetDate.getD "" = today
  · by_cases hafter : afterClosing s.closingTime nowH nowM
    · refine ⟨?_, ?_, ?_, ?_⟩
      · simp [maybeDailyReset, hlast, hafter]
      · intro _
        simp [maybeDailyReset, hlast, hafter]
      · intro h2
        simp [maybeDailyReset, hlast, hafter] at h2
      · intro h2
        rw [h2] at hafter
        cases hafter
    · refine ⟨?_, ?_, ?_, ?_⟩
      · simp [maybeDailyReset, hlast, hafter]
      · intro h2
        simp [maybeDailyReset, hlast, hafter] at h2
      · intro _
        simp [maybeDailyReset, hlast, hafter]
      · intro _
        simp [maybeDailyReset, hlast, hafter]
  · refine ⟨?_, ?_, ?_, ?_⟩
    · simp [maybeDailyReset, hlast]
    · intro _
      simp [maybeDailyReset, hlast]
    · intro h2
      simp [maybeDailyReset, hlast] at h2
    · intro hafter
      simp [maybeDailyReset, hlast, closeShopNow, hafter]

/-- Witness for C4: with yesterday's marker at 10:00 and the default
closing time, the first call performs the catch-up rollover and the second
call of the same day (still before closing) does not trigger again. -/
theorem maybeDailyReset_spec_witness :
    (maybeDailyReset
      (maybeDailyReset ⟨[], [], some "2026-03-09", none⟩ "2026-03-10" 10 0).1
      "2026-03-10" 10 0).2 = false :=
  (maybeDailyReset_spec ⟨[], [], some "2026-03-09", none⟩ "2026-03-10" 10 0).2.2.2 (by decide)

/-- C4 counterexample: at 23:30 (past the default closing time 23:00) the
first call resets and records today's marker, yet the second call of the
same day triggers a second full rollover — the code has no "no reset has
already happened today" guard, so the claimed trigger condition is false
at this input. -/
theorem maybeDailyReset_double_trigger :
    ((maybeDailyReset ⟨[], [], some "2026-03-09", none⟩ "2026-03-10" 23 30).2 = true) ∧
      ((maybeDailyReset ⟨[], [], some "2026-03-09", none⟩ "2026-03-10" 23 30).1.lastResetDate =
        some "2026-03-10") ∧
      ((maybeDailyReset
          (maybeDailyReset ⟨[], [], some "2026-03-09", none⟩ "2026-03-10" 23 30).1
          "2026-03-10" 23 30).2 = true) := by
  decide

/-! ### Claims about order search -/

/-- C8 (amended): an empty or whitespace-only query returns all orders
unfiltered; otherwise an order is returned exactly when the lowercased
query is a substring of its lowercased id, of its orderNumber zero-padded
to 4 digits — this criterion applying only when the orderNumber is truthy
(present and non-zero) — or of some item's lowercased name. -/
theorem filterOrders_spec (orders : List Order) (query : String) :
    ((query = "" ∨ jsTrim query = "") → filterOrders orders query = orders) ∧
      (¬(query = "" ∨ jsTrim query = "") →
        filterOrders orders query = orders.filter (specOrderMatches query)) := by
  constructor
  · intro h
    simp [filterOrders, h]
  · intro h
    unfold filterOrders
    rw [if_neg h]
    apply List.filter_congr
    intro o _
    by_cases h1 : jsIncludes (jsToLower o.id) (jsTrim (jsToLower query)) = true
    · simp [h1, specOrderMatches]
    · by_cases h2 : o.orderNumber = 0
      · simp [h1, h2, specOrderMatches]
      · by_cases h3 :
          jsIncludes (jsToLower (padStart4 o.orderNumber)) (jsTrim (jsToLower query)) = true
        · simp [h1, h2, h3, specOrderMatches]
        · simp [h1, h2, h3, specOrderMatches]

/-- Witness for C8: the specification's example order is found by
`"abc123"` and `"fried"`, missed by `"pasta"`, and a whitespace query
returns the list unfiltered. -/
theorem filterOrders_spec_witness :
    filterOrders [exampleOrder] "abc123" = [exampleOrder] ∧
      filterOrders [exampleOrder] "fried" = [exampleOrder] ∧
      filterOrders [exampleOrder] "pasta" = [] ∧
      filterOrders [exampleOrder] "  " = [exampleOrder] :=
  ⟨((filterOrders_spec [exampleOrder] "abc123").2 (by decide)).trans (by decide),
   ((filterOrders_spec [exampleOrder] "fried").2 (by decide)).trans (by decide),
   ((filterOrders_spec [exampleOrder] "pasta").2 (by decide)).trans (by decide),
   (filterOrders_spec [exampleOrder] "  ").1 (by decide)⟩

/-- C8 counterexample: for an order whose `orderNumber` is `0` (reachable
through import, since the structural order predicate does not constrain
`orderNumber`), the zero-padded number is `"0000"` and the query `"0000"`
is a substring of it — the claim requires the order to be returned — yet
`filterOrders` returns nothing, because `if (order.orderNumber)` skips the
check for the falsy value `0`. -/
theorem filterOrders_zeroOrderNumber :
    filterOrders [{ id := "x", timestamp := "t", items := [], total := 0,
                    status := "Yet to prepare", orderNumber := 0 }] "0000" = [] ∧
      jsIncludes (jsToLower (padStart4 0)) (jsTrim (jsToLower "0000")) = true := by
  decide

/-! ### Claims about sanitization -/

/-- C9 (amended): `sanitizeMenuItem` trims string `name`/`id` inputs
(blanking a falsy `id`), rounds a numeric price to 2 decimal places,
defaults the price to `0` when the input price is falsy (absent, `0`,
empty, `null`, `NaN`) but yields `NaN` on a truthy non-numeric price
string, defaults the category to `"Uncategorized"` when absent or blank
after trimming, and coerces `favorite`/`hidden` to booleans. -/
theorem sanitizeMenuItem_spec (item : RawMenuItem) :
    (∀ s : String, item.name = .jStr s → (sanitizeMenuItem item).name = jsTrim s) ∧
      (∀ s : String, item.id = .jStr s → s ≠ "" → (sanitizeMenuItem item).id = jsTrim s) ∧
      (truthy item.id = false → (sanitizeMenuItem item).id = "") ∧
      (∀ q : ℚ, item.price = .jNum (.fin q) →
        (sanitizeMenuItem item).price = .fin (round2Rat q)) ∧
      (truthy item.price = false → (sanitizeMenuItem item).price = .fin 0) ∧
      (∀ s : String, item.price = .jStr s → s ≠ "" → parseFloatStr s = .nan →
        (sanitizeMenuItem item).price = .nan) ∧
      (item.category = .jUndef → (sanitizeMenuItem item).category = "Uncategorized") ∧
      (∀ s : String, item.category = .jStr s → jsTrim s = "" →
        (sanitizeMenuItem item).category = "Uncategorized") ∧
      (∀ s : String, item.category = .jStr s → jsTrim s ≠ "" →
        (sanitizeMenuItem item).category = jsTrim s) ∧
      (sanitizeMenuItem item).favorite = truthy item.favorite ∧
      (sanitizeMenuItem item).hidden = truthy item.hidden := by
  refine ⟨?_, ?_, ?_, ?_, ?_, ?_, ?_, ?_, ?_, rfl, rfl⟩
  · intro s h
    by_cases hs : s = ""
    · subst hs
      simp [sanitizeMenuItem, h, jsOr, truthy, jsToString]
    · simp [sanitizeMenuItem, h, jsOr, truthy, hs, jsToString]
  · intro s h hs
    simp [sanitizeMenuItem, h, truthy, hs, jsToString]
  · intro h
    simp [sanitizeMenuItem, h]
  · intro q h
    by_cases hq : q = 0
    · subst hq
      simp [sanitizeMenuItem, h, jsOr, truthy, parseFloatJ, round2_fin]
    · simp [sanitizeMenuItem, h, jsOr, truthy, hq, parseFloatJ, round2_fin]
  · intro h
    simp [sanitizeMenuItem, jsOr, h, parseFloatJ, round2_fin]
    norm_num [round2Rat]
  · intro s h hs hnan
    simp [sanitizeMenuItem, h, jsOr, truthy, hs, jsToString, parseFloatJ, hnan, round2,
      jnMul100, jsRound, jnDiv100]
  · intro h
    simp [sanitizeMenuItem, h, jsOr, truthy, jsToString]
    decide
  · intro s h hs
    by_cases hse : s = ""
    · subst hse
      simp [sanitizeMenuItem, h, jsOr, truthy, jsToString]
      decide
    · simp [sanitizeMenuItem, h, jsOr, truthy, hse, jsToString, hs]
  · intro s h hs
    have hse : s ≠ "" := by
      intro he
      subst he
      exact hs rfl
    simp [sanitizeMenuItem, h, jsOr, truthy, hse, jsToString, hs]

/-- Witness for C9: a raw record with whitespace-padded strings, a numeric
price `12.345` (rounded to `12.35`) and a blank category. -/
theorem sanitizeMenuItem_spec_witness :
    (sanitizeMenuItem exampleRawItem).name = jsTrim " Tea " ∧
      (sanitizeMenuItem exampleRawItem).price = .fin (round2Rat (12345 / 1000)) ∧
      (sanitizeMenuItem exampleRawItem).category = "Uncategorized" :=
  ⟨(sanitizeMenuItem_spec exampleRawItem).1 " Tea " rfl,
   (sanitizeMenuItem_spec exampleRawItem).2.2.2.1 (12345 / 1000) rfl,
   (sanitizeMenuItem_spec exampleRawItem).2.2.2.2.2.2.2.1 "   " rfl (by decide)⟩

/-- C9 counterexample: a truthy non-numeric price input (`"abc"`) makes
`Math.round(parseFloat("abc") * 100) / 100` evaluate to `NaN`, not to the
`0` the claim promises for non-numeric input. -/
theorem sanitizeMenuItem_nonNumericPrice :
    (sanitizeMenuItem badPriceRawItem).price = JNum.nan ∧ JNum.nan ≠ JNum.fin 0 := by
  decide

/-! ### Claims about import and export -/

/-- C5: `importAll` validation and replace-all semantics, as claimed. -/
theorem importAll_spec (s : DbState) : ImportAllClaim s := by
  refine ⟨rfl, fun ords => rfl, fun menu => rfl, ?_, ?_, ?_, ?_⟩
  · intro menu ords t h
    simp only [importAll] at h
    by_cases hempty : menu.filterMap menuEntryValid? = [] ∧ menu ≠ []
    · rw [if_pos hempty] at h
      cases h
    · rw [if_neg hempty] at h
      by_cases hk1 : keysOk ((menu.filterMap menuEntryValid?).map fun m => m.id) = true
      · rw [if_pos hk1] at h
        by_cases hk2 : keysOk ((ords.filterMap orderEntryValid?).map fun o => o.id) = true
        · rw [if_pos hk2] at h
          injection h with h2
          subst h2
          exact ⟨rfl, rfl, rfl⟩
        · rw [if_neg hk2] at h
          cases h
      · rw [if_neg hk1] at h
        cases h
  · intro menu ords hfm hne
    simp only [importAll]
    rw [if_pos ⟨hfm, hne⟩]
  · intro ords
    simp only [importAll]
    rw [if_neg (by simp)]
    rw [if_pos (by decide)]
    by_cases hk2 : keysOk ((ords.filterMap orderEntryValid?).map fun o => o.id) = true
    · rw [if_pos hk2]
      simp
    · rw [if_neg hk2]
      simp
  · intro ords hk2
    simp only [importAll]
    rw [if_neg (by simp), if_pos (by decide), if_pos hk2]
    rfl

/-- Witness for C5: importing a snapshot with a legitimately empty menu
array and one non-object orders entry succeeds with both collections
replaced (the junk entry dropped) and the archive untouched. -/
theorem importAll_spec_witness :
    importAll ⟨[exampleRawItem], [], []⟩ (.obj (some []) (some [.prim .jNull])) =
      .ok { menu := [], orders := [], archive := ([] : List RawOrder) } :=
  (importAll_spec ⟨[exampleRawItem], [], []⟩).2.2.2.2.2.2 [.prim .jNull] (by decide)

/-- C6: for every stored state whose menu and orders records all pass the
structural predicates (and whose id keys are distinct, as an id-keyed
store guarantees), `importAll(exportAll())` succeeds and reproduces the
stored menu and orders collections exactly, leaving the archive untouched. -/
theorem export_import_roundtrip (s : DbState)
    (hm : ∀ m ∈ s.menu, isValidMenuItemB m = true)
    (ho : ∀ o ∈ s.orders, isValidOrderB o = true)
    (hndm : keysNodup (s.menu.map fun m => m.id) = true)
    (hndo : keysNodup (s.orders.map fun o => o.id) = true) :
    importAll s (snapshotToJson (exportAll s)) = .ok s := by
  have hgm : getMenuDb s = s.menu := List.filter_eq_self.mpr hm
  have hgo : getAllOrdersDb s = s.orders := List.filter_eq_self.mpr ho
  have hfm : ((getMenuDb s).map RawMenuEntry.obj).filterMap menuEntryValid? = s.menu := by
    rw [hgm]
    exact filterMap_menuEntry_obj s.menu hm
  have hfo : ((getAllOrdersDb s).map RawOrderEntry.obj).filterMap orderEntryValid? = s.orders := by
    rw [hgo]
    exact filterMap_orderEntry_obj s.orders ho
  have hkm : keysOk ((((getMenuDb s).map RawMenuEntry.obj).filterMap menuEntryValid?).map
      fun m => m.id) = true := by
    rw [hfm, keysOk, Bool.and_eq_true]
    refine ⟨List.all_eq_true.mpr ?_, hndm⟩
    intro k hk
    rcases List.mem_map.mp hk with ⟨m, hmem, hkey⟩
    rw [← hkey]
    exact isValidMenuItemB_idbKey m (hm m hmem)
  have hko : keysOk ((((getAllOrdersDb s).map RawOrderEntry.obj).filterMap
      orderEntryValid?).map fun o => o.id) = true := by
    rw [hfo, keysOk, Bool.and_eq_true]
    refine ⟨List.all_eq_true.mpr ?_, hndo⟩
    intro k hk
    rcases List.mem_map.mp hk with ⟨o, hmem, hkey⟩
    rw [← hkey]
    exact isValidOrderB_idbKey o (ho o hmem)
  show importAll s (.obj (some ((getMenuDb s).map RawMenuEntry.obj))
      (some ((getAllOrdersDb s).map RawOrderEntry.obj))) = .ok s
  simp only [importAll]
  rw [if_neg ?hne, if_pos hkm, if_pos hko, hfm, hfo]
  case hne =>
    intro hand
    rcases hand with ⟨hnil, hmapne⟩
    rw [hfm] at hnil
    apply hmapne
    rw [hgm, hnil]
    rfl

/-- Witness for C6: a one-item, one-order store round-trips exactly. -/
theorem export_import_roundtrip_witness :
    importAll ⟨[exampleRawItem], [exampleRawOrder], []⟩
        (snapshotToJson (exportAll ⟨[exampleRawItem], [exampleRawOrder], []⟩)) =
      .ok ⟨[exampleRawItem], [exampleRawOrder], []⟩ :=
  export_import_roundtrip ⟨[exampleRawItem], [exampleRawOrder], []⟩
    (by decide) (by decide) (by decide) (by decide)

end MenuApp
